import Mathlib

/-!
Shallow embedding of `src/core/fileSystemWatcher.ts` (coc.nvim):
the `FileSystemWatcherManager` (root → watchman-client registry) and the
`FileSystemWatcher` (glob-scoped create/change/delete/rename event source),
together with the batch-reconciliation routine that classifies watchman
change records and heuristically infers renames.

External collaborators (the watchman client factory, the minimatch glob
matcher, the log sink) are modelled at their boundary: the glob matcher is
an arbitrary function parameter, the client factory's outcome is supplied
to an explicit completion step, and the log sink is an append-only list.
-/

namespace FsWatch

/-- One watchman change record (`FileChange.files` element): name relative to
the root, entry type (`"f"` for file), existence after the change, whether the
entry is new, size in bytes and modification time in milliseconds. -/
structure FileItem where
  name : String
  type : String
  exists_ : Bool
  new : Bool
  size : Nat
  mtime_ms : Nat
deriving Repr, DecidableEq

/-- One atomic change notification from a watchman client (`FileChange`). -/
structure FileChange where
  root : String
  files : List FileItem
deriving Repr, DecidableEq

/-- A fired event on one of the four watcher streams; locations are the
`URI.file(path.join(root, name))` paths. -/
inductive WatchEvent where
  | create (uri : String)
  | change (uri : String)
  | delete (uri : String)
  | rename (oldUri newUri : String)
deriving Repr, DecidableEq

/-- The `path.join(root, name)` path for the URIs built by the watcher. -/
def pathJoin (root name : String) : String :=
  root ++ "/" ++ name

/-- Modelled from the spec: `splitArray` lives in `src/util/array`, which is
not part of the provided sources; the spec states the filtered list is
partitioned, preserving order, into the records satisfying the predicate and
the rest. -/
def splitArray (xs : List FileItem) (p : FileItem → Bool) : List FileItem × List FileItem :=
  (xs.filter p, xs.filter fun x => !p x)

/-- The filter step of `FileSystemWatcher.listen`'s `onChange`:
`files.filter(f => f.type == 'f' && minimatch(f.name, globPattern, {dot: true}))`;
`glob name pattern` stands for the external `minimatch(name, pattern, {dot:true})`. -/
def filterFiles (glob : String → String → Bool) (globPattern : String)
    (files : List FileItem) : List FileItem :=
  files.filter fun f => f.type == "f" && glob f.name globPattern

/-- The per-record classification loop of `onChange`: `!exists_` fires delete,
`exists_ && new === true` fires create, otherwise change, each suppressed by the
corresponding ignore flag. -/
def perRecordEvents (root : String)
    (ignoreCreateEvents ignoreChangeEvents ignoreDeleteEvents : Bool)
    (files : List FileItem) : List WatchEvent :=
  files.filterMap fun file =>
    if !file.exists_ then
      if !ignoreDeleteEvents then some (.delete (pathJoin root file.name)) else none
    else if file.new then
      if !ignoreCreateEvents then some (.create (pathJoin root file.name)) else none
    else
      if !ignoreChangeEvents then some (.change (pathJoin root file.name)) else none

/-- The pairwise rename heuristic of `onChange`: exactly two filtered records,
the first absent, the second present, equal sizes. -/
def pairRename (root : String) (files : List FileItem) : List WatchEvent :=
  match files with
  | [oldFile, newFile] =>
    if !oldFile.exists_ && newFile.exists_ && oldFile.size == newFile.size then
      [.rename (pathJoin root oldFile.name) (pathJoin root newFile.name)]
    else []
  | _ => []

/-- The batch ("folder rename") heuristic of `onChange`: with at least two
filtered records, partition into vanished and appeared; when the sides have
equal length, each vanished record fires a rename to the first appeared record
with the same size and mtime (the appeared list is never shrunk). -/
def batchRenames (root : String) (files : List FileItem) : List WatchEvent :=
  if 2 ≤ files.length then
    let part := splitArray files fun o => o.exists_ == false
    let oldFiles := part.1
    let newFiles := part.2
    if oldFiles.length == newFiles.length then
      oldFiles.filterMap fun oldFile =>
        match newFiles.find? fun o => o.size == oldFile.size && o.mtime_ms == oldFile.mtime_ms with
        | some newFile => some (.rename (pathJoin root oldFile.name) (pathJoin root newFile.name))
        | none => none
    else []
  else []

/-- A broadcast emitter (`vscode-languageserver-protocol` `Emitter`): a list of
listeners and an active flag; `dispose` drops the callback list, after which
`fire` reaches nobody. -/
structure Emitter where
  listeners : List Nat := []
  active : Bool := true
deriving Repr, DecidableEq

/-- Disposal of an emitter (`Emitter.dispose()`): the callback list is gone; further fires are silent. -/
def Emitter.disposeE (e : Emitter) : Emitter :=
  { e with listeners := [], active := false }

/-- The `FileSystemWatcher` object: immutable glob pattern and ignore flags,
the four emitters, and the terminal flag. -/
structure FileSystemWatcher where
  globPattern : String
  ignoreCreateEvents : Bool
  ignoreChangeEvents : Bool
  ignoreDeleteEvents : Bool
  onDidCreate : Emitter := {}
  onDidChange : Emitter := {}
  onDidDelete : Emitter := {}
  onDidRename : Emitter := {}
  disposed : Bool := false
deriving Repr, DecidableEq

/-- The full `onChange` callback of `FileSystemWatcher.listen`, as the ordered
list of events it fires: filter, per-record classification, pairwise rename,
batch rename. -/
def onChangeEvents (glob : String → String → Bool) (w : FileSystemWatcher)
    (change : FileChange) : List WatchEvent :=
  let files := filterFiles glob w.globPattern change.files
  perRecordEvents change.root w.ignoreCreateEvents w.ignoreChangeEvents w.ignoreDeleteEvents files
    ++ pairRename change.root files
    ++ batchRenames change.root files

/-- The emitter a given event is fired on. -/
def emitterFor (w : FileSystemWatcher) : WatchEvent → Emitter
  | .create _ => w.onDidCreate
  | .change _ => w.onDidChange
  | .delete _ => w.onDidDelete
  | .rename _ _ => w.onDidRename

/-- Events of a batch that are observable on the watcher's streams: each fired
event reaches subscribers exactly when its emitter is still active. -/
def observableEvents (glob : String → String → Bool) (w : FileSystemWatcher)
    (change : FileChange) : List WatchEvent :=
  (onChangeEvents glob w change).filter fun e => (emitterFor w e).active

/-- Disposal of a watcher (`FileSystemWatcher.dispose()`) together with the static watcher registry
(`FileSystemWatcherManager.watchers`, modelled as a list of watcher ids):
sets the terminal flag, removes itself from the registry, and disposes the
rename, create and change emitters — the source never disposes `_onDidDelete`. -/
def watcherDispose (w : FileSystemWatcher) (wid : Nat) (registry : List Nat) :
    FileSystemWatcher × List Nat :=
  ({ w with disposed := true,
            onDidRename := w.onDidRename.disposeE,
            onDidCreate := w.onDidCreate.disposeE,
            onDidChange := w.onDidChange.disposeE },
   registry.filter fun x => !(x == wid))

/-- Association-list lookup for the `clientsMap` (`Map<string, Watchman>`,
clients modelled by numeric ids; the code only ever stores the client obtained
from a successful `Watchman.createClient`). -/
def mapLookup (m : List (String × Nat)) (k : String) : Option Nat :=
  match m with
  | [] => none
  | (k', v) :: rest => if k' == k then some v else mapLookup rest k

/-- The `Map.set` semantics: replace the entry for the key if present, else append. -/
def mapSet (m : List (String × Nat)) (k : String) (v : Nat) : List (String × Nat) :=
  match m with
  | [] => [(k, v)]
  | (k', v') :: rest => if k' == k then (k, v) :: rest else (k', v') :: mapSet rest k v

/-- Number of entries a key has in the map. -/
def countKey (m : List (String × Nat)) (k : String) : Nat :=
  match m with
  | [] => 0
  | (k', _) :: rest => (if k' == k then 1 else 0) + countKey rest k

/-- The mutable state of a `FileSystemWatcherManager`, plus observation
traces for its interactions with external collaborators: `factoryCalls`
records each invocation of the external `Watchman.createClient`,
`firedRoots` the roots fired on `_onDidCreateClient`, `attachedPairs` each
`watcher.listen(client)` call, `disposedClients` each `client.dispose()`,
and `log` the error sink. -/
structure ManagerState where
  creatingRoots : List String := []
  clientsMap : List (String × Nat) := []
  disposed : Bool := false
  watchers : List Nat := []
  firedRoots : List String := []
  factoryCalls : List String := []
  log : List String := []
  attachedPairs : List (Nat × Nat) := []
  disposedClients : List Nat := []
deriving Repr, DecidableEq

/-- The synchronous prefix of `createClient(root)` up to the `await`: return
at once when the watchman path is unset, the root is marked as creating, or
the map already has the root; otherwise mark the root and invoke the external
factory (the returned flag says whether the factory was called). -/
def createClientStart (watchmanPath : Option String) (root : String)
    (s : ManagerState) : ManagerState × Bool :=
  if watchmanPath.isNone then (s, false)
  else if s.creatingRoots.contains root || (mapLookup s.clientsMap root).isSome then
    (s, false)
  else
    ({ s with creatingRoots := root :: s.creatingRoots,
              factoryCalls := s.factoryCalls ++ [root] }, true)

/-- Resumption of `createClient(root)` when the awaited factory call resolves
with `client`: unmark the root; if the manager was disposed meanwhile, dispose
the client and discard it; otherwise store it, attach every registered watcher
and fire `_onDidCreateClient`. -/
def createClientResolve (root : String) (client : Nat) (s : ManagerState) : ManagerState :=
  let s₁ := { s with creatingRoots := s.creatingRoots.filter fun r => !(r == root) }
  if s₁.disposed then
    { s₁ with disposedClients := s₁.disposedClients ++ [client] }
  else
    let s₂ := { s₁ with clientsMap := mapSet s₁.clientsMap root client }
    let s₃ := { s₂ with attachedPairs := s₂.attachedPairs ++ s₂.watchers.map fun w => (w, client) }
    { s₃ with firedRoots := s₃.firedRoots ++ [root] }

/-- Resumption of `createClient(root)` when the awaited factory call rejects:
the `catch` block only logs the error — in particular `creatingRoots` keeps
the root, the map is untouched, and nothing is fired. -/
def createClientReject (root : String) (err : String) (s : ManagerState) : ManagerState :=
  let _ := root
  { s with log := s.log ++ [err] }

/-- The `e.removed` handler of `attach`: dispose the root's client if mapped;
the map entry itself is never deleted. -/
def onRootRemoved (root : String) (s : ManagerState) : ManagerState :=
  match mapLookup s.clientsMap root with
  | some c => { s with disposedClients := s.disposedClients ++ [c] }
  | none => s

/-- The `createFileSystemWatcher` operation: the new watcher (by id) listens on every stored
client and is added to the static registry. -/
def createWatcherOp (wid : Nat) (s : ManagerState) : ManagerState :=
  { s with attachedPairs := s.attachedPairs ++ s.clientsMap.map fun kv => (wid, kv.2),
           watchers := s.watchers ++ [wid] }

/-- Registry disposal (`FileSystemWatcherManager.dispose()`): set the terminal flag, clear the
creating set, dispose every stored client; the `clientsMap` keeps its
entries. -/
def managerDispose (s : ManagerState) : ManagerState :=
  { s with disposed := true,
           creatingRoots := [],
           disposedClients := s.disposedClients ++ s.clientsMap.map fun kv => kv.2 }

/-- Whether `waitClient(root)` resolves, given the manager state at the call
and the roots subsequently fired on `_onDidCreateClient`: it resolves at once
when the map has the root, otherwise exactly when a later fire carries that
root. -/
def waitClientResolves (s : ManagerState) (root : String) (laterFires : List String) : Bool :=
  (mapLookup s.clientsMap root).isSome || laterFires.contains root

/-- One scheduler step of the manager: a `createClient` call up to its await,
a resolution or rejection of an in-flight factory call, a root-removed
notification, a `createFileSystemWatcher` call, or `dispose`. -/
inductive MStep where
  | start (watchmanPath : Option String) (root : String)
  | resolve (root : String) (client : Nat)
  | reject (root : String) (err : String)
  | rootRemoved (root : String)
  | createWatcher (wid : Nat)
  | disposeM
deriving Repr, DecidableEq

/-- Apply one scheduler step to the manager state. -/
def applyMStep (step : MStep) (s : ManagerState) : ManagerState :=
  match step with
  | .start wp root => (createClientStart wp root s).1
  | .resolve root client => createClientResolve root client s
  | .reject root err => createClientReject root err s
  | .rootRemoved root => onRootRemoved root s
  | .createWatcher wid => createWatcherOp wid s
  | .disposeM => managerDispose s

/-- Running `n` concurrent `createClient(root)` calls: in the single-threaded model
each runs synchronously to its await point, one after the other; the second
component counts how many reached the external factory. -/
def startsN (watchmanPath : Option String) (root : String) :
    Nat → ManagerState → ManagerState × Nat
  | 0, s => (s, 0)
  | n + 1, s =>
    let p := createClientStart watchmanPath root s
    let q := startsN watchmanPath root n p.1
    (q.1, (if p.2 then 1 else 0) + q.2)

/-- Event-shape discriminators used to state properties of the streams. -/
def isDeleteEvent : WatchEvent → Bool
  | .delete _ => true
  | _ => false

/-- Discriminator for create events. -/
def isCreateEvent : WatchEvent → Bool
  | .create _ => true
  | _ => false

/-- Discriminator for change events. -/
def isChangeEvent : WatchEvent → Bool
  | .change _ => true
  | _ => false

/-- Discriminator for rename events. -/
def isRenameEvent : WatchEvent → Bool
  | .rename _ _ => true
  | _ => false

/-- The rename events among a fired event list, in order. -/
def renameEvents (es : List WatchEvent) : List WatchEvent :=
  es.filter isRenameEvent

/-- Sample record: a vanished file entry. -/
def itemGone (nm : String) (sz mt : Nat) : FileItem :=
  { name := nm, type := "f", exists_ := false, new := false, size := sz, mtime_ms := mt }

/-- Sample record: a freshly appeared file entry. -/
def itemNew (nm : String) (sz mt : Nat) : FileItem :=
  { name := nm, type := "f", exists_ := true, new := true, size := sz, mtime_ms := mt }

/-- A `createClient` call returns without side effects when the root is
already marked as creating or already mapped. -/
theorem createClientStart_noop (wp : Option String) (root : String) (t : ManagerState)
    (h : t.creatingRoots.contains root = true ∨ (mapLookup t.clientsMap root).isSome = true) :
    createClientStart wp root t = (t, false) := by
  unfold createClientStart
  rcases wp with _ | p
  · simp
  · rcases h with h | h
    · have h' : root ∈ t.creatingRoots := by simpa using h
      simp [h']
    · simp [h]

/-- The `createClient` prefix never modifies the root→client map before its await
resolves. -/
theorem createClientStart_clientsMap (wp : Option String) (root : String) (s : ManagerState) :
    (createClientStart wp root s).1.clientsMap = s.clientsMap := by
  unfold createClientStart
  split
  · rfl
  · split <;> rfl

/-- The `createClient` prefix never unmarks, remaps or fires anything before its await
resolves; only the creating mark and the factory-call trace grow. -/
theorem createClientStart_disposed (wp : Option String) (root : String) (s : ManagerState) :
    (createClientStart wp root s).1.disposed = s.disposed := by
  unfold createClientStart
  split
  · rfl
  · split <;> rfl

/-- C6: a connection resolving after the registry was disposed is disposed
immediately and is neither stored in the map, nor attached to any watcher,
nor announced on `_onDidCreateClient`. -/
theorem resolve_after_dispose_discards (s : ManagerState) (root : String) (c : Nat)
    (h : s.disposed = true) :
    (createClientResolve root c s).disposedClients = s.disposedClients ++ [c] ∧
    (createClientResolve root c s).clientsMap = s.clientsMap ∧
    (createClientResolve root c s).attachedPairs = s.attachedPairs ∧
    (createClientResolve root c s).firedRoots = s.firedRoots := by
  simp [createClientResolve, h]

/-- Concrete run of `resolve_after_dispose_discards`. -/
theorem resolve_after_dispose_discards_witness :
    (createClientResolve "/r" 7 ({ disposed := true } : ManagerState)).disposedClients = [7] ∧
    (createClientResolve "/r" 7 ({ disposed := true } : ManagerState)).clientsMap = [] := by
  have h := resolve_after_dispose_discards ({ disposed := true } : ManagerState) "/r" 7 rfl
  exact ⟨by simpa using h.1, by simpa using h.2.1⟩

/-- C3 counterexample: a failed creation does not clear the creating mark —
after `createClient "/r"` starts and the factory call rejects, the root is
still in `creatingRoots`. -/
theorem failed_creation_keeps_mark :
    (createClientReject "/r" "boom"
      (createClientStart (some "/usr/bin/watchman") "/r" ({} : ManagerState)).1).creatingRoots
      = ["/r"] := by decide

/-- C3 (amended): when the factory call for a creating root rejects, the
`catch` only logs the error: the creating mark stays set, no connection is
stored, nothing is fired or attached, and any later `createClient` for that
root returns immediately without side effects (the stale mark is what blocks
retries). -/
theorem failed_creation_behavior (s : ManagerState) (wp : Option String) (root err : String)
    (h : s.creatingRoots.contains root = true) :
    (createClientReject root err s).creatingRoots = s.creatingRoots ∧
    (createClientReject root err s).clientsMap = s.clientsMap ∧
    (createClientReject root err s).log = s.log ++ [err] ∧
    (createClientReject root err s).firedRoots = s.firedRoots ∧
    (createClientReject root err s).attachedPairs = s.attachedPairs ∧
    createClientStart wp root (createClientReject root err s) =
      (createClientReject root err s, false) := by
  refine ⟨rfl, rfl, rfl, rfl, rfl, ?_⟩
  exact createClientStart_noop wp root _ (Or.inl h)

/-- Concrete run of `failed_creation_behavior`. -/
theorem failed_creation_behavior_witness :
    (createClientReject "/r" "boom" ({ creatingRoots := ["/r"] } : ManagerState)).creatingRoots
      = ["/r"] ∧
    createClientStart (some "/usr/bin/watchman") "/r"
        (createClientReject "/r" "boom" ({ creatingRoots := ["/r"] } : ManagerState)) =
      (createClientReject "/r" "boom" ({ creatingRoots := ["/r"] } : ManagerState), false) := by
  have h := failed_creation_behavior ({ creatingRoots := ["/r"] } : ManagerState)
    (some "/usr/bin/watchman") "/r" "boom" (by decide)
  exact ⟨h.1, h.2.2.2.2.2⟩

/-- C9: `waitClient(root)` resolves immediately when the map already has the
root; otherwise it resolves exactly when a later `_onDidCreateClient` fire
carries that root; and a rejected factory call fires nothing (so a root whose
creation failed never resolves a waiter). -/
theorem waitClient_behavior (s : ManagerState) (root err : String) (fires : List String) :
    ((mapLookup s.clientsMap root).isSome = true → waitClientResolves s root [] = true) ∧
    (mapLookup s.clientsMap root = none →
      (waitClientResolves s root fires = true ↔ fires.contains root = true)) ∧
    (createClientReject root err s).firedRoots = s.firedRoots := by
  refine ⟨?_, ?_, rfl⟩
  · intro h
    simp [waitClientResolves, h]
  · intro h
    simp [waitClientResolves, h]

/-- Concrete run of `waitClient_behavior`. -/
theorem waitClient_behavior_witness :
    waitClientResolves ({ clientsMap := [("/a", 1)] } : ManagerState) "/a" [] = true := by
  have h := waitClient_behavior ({ clientsMap := [("/a", 1)] } : ManagerState) "/a" "e" []
  exact h.1 (by decide)

/-- Once the root is marked as creating, any number of further `createClient`
calls are no-ops and reach the factory zero times. -/
theorem startsN_marked (wp : Option String) (root : String) (n : Nat) (t : ManagerState)
    (h : t.creatingRoots.contains root = true) :
    startsN wp root n t = (t, 0) := by
  induction n with
  | zero => rfl
  | succ n ih =>
    simp only [startsN]
    rw [createClientStart_noop wp root t (Or.inl h)]
    simp [ih]

/-- A key the map does not know has no entries. -/
theorem countKey_eq_zero_of_lookup_none (m : List (String × Nat)) (k : String)
    (h : mapLookup m k = none) : countKey m k = 0 := by
  induction m with
  | nil => rfl
  | cons kv rest ih =>
    obtain ⟨k', v⟩ := kv
    by_cases hk : (k' == k)
    · simp [mapLookup, hk] at h
    · unfold mapLookup at h
      rw [if_neg (by simpa using hk)] at h
      simp [countKey, hk, ih h]

/-- Setting a fresh key leaves it with exactly one entry. -/
theorem countKey_mapSet_one (m : List (String × Nat)) (k : String) (v : Nat)
    (h : mapLookup m k = none) : countKey (mapSet m k v) k = 1 := by
  induction m with
  | nil => simp [mapSet, countKey]
  | cons kv rest ih =>
    obtain ⟨k', v'⟩ := kv
    by_cases hk : (k' == k)
    · simp [mapLookup, hk] at h
    · unfold mapLookup at h
      rw [if_neg (by simpa using hk)] at h
      simp [mapSet, countKey, hk, ih h]

/-- C5: for a fresh root, `n ≥ 1` concurrent `createClient(root)` calls (each
running synchronously to its await) reach the external factory exactly once
and store nothing until the single in-flight creation resolves, at which point
the map has exactly one entry for the root; any call seeing the root marked or
mapped returns immediately without side effects. -/
theorem creation_dedup (wp : String) (root : String) (s : ManagerState) (n c : Nat)
    (h1 : s.creatingRoots.contains root = false)
    (h2 : mapLookup s.clientsMap root = none)
    (hd : s.disposed = false)
    (hn : 1 ≤ n) :
    (startsN (some wp) root n s).2 = 1 ∧
    (startsN (some wp) root n s).1.factoryCalls = s.factoryCalls ++ [root] ∧
    (startsN (some wp) root n s).1.clientsMap = s.clientsMap ∧
    countKey (createClientResolve root c (startsN (some wp) root n s).1).clientsMap root = 1 ∧
    (∀ (t : ManagerState) (wp₂ : Option String),
      t.creatingRoots.contains root = true ∨ (mapLookup t.clientsMap root).isSome = true →
      createClientStart wp₂ root t = (t, false)) := by
  obtain ⟨m, rfl⟩ : ∃ m, n = m + 1 := ⟨n - 1, by omega⟩
  have h1' : root ∉ s.creatingRoots := by simpa using h1
  have hstart : createClientStart (some wp) root s =
      ({ s with creatingRoots := root :: s.creatingRoots,
                factoryCalls := s.factoryCalls ++ [root] }, true) := by
    unfold createClientStart
    simp [h1', h2]
  have hmark : ({ s with creatingRoots := root :: s.creatingRoots,
                          factoryCalls := s.factoryCalls ++ [root] } :
      ManagerState).creatingRoots.contains root = true := by
    simp
  have hrest := startsN_marked (some wp) root m _ hmark
  have hall : startsN (some wp) root (m + 1) s =
      ({ s with creatingRoots := root :: s.creatingRoots,
                factoryCalls := s.factoryCalls ++ [root] }, 1) := by
    simp only [startsN]
    rw [hstart]
    simp [hrest]
  refine ⟨by rw [hall], by rw [hall], by rw [hall], ?_,
    fun t wp₂ h => createClientStart_noop wp₂ root t h⟩
  rw [hall]
  simp only [createClientResolve]
  simp [hd]
  exact countKey_mapSet_one _ _ _ h2

/-- Concrete run of `creation_dedup`: three concurrent calls, one factory
invocation, one map entry after resolution. -/
theorem creation_dedup_witness :
    (startsN (some "/usr/bin/watchman") "/r" 3 ({} : ManagerState)).2 = 1 ∧
    countKey (createClientResolve "/r" 42
      (startsN (some "/usr/bin/watchman") "/r" 3 ({} : ManagerState)).1).clientsMap "/r" = 1 := by
  have h := creation_dedup "/usr/bin/watchman" "/r" ({} : ManagerState) 3 42
    (by decide) rfl rfl (by omega)
  exact ⟨h.1, h.2.2.2.1⟩

/-- Looking up after `Map.set`: the set key reads back the new value, every
other key is unaffected. -/
theorem mapLookup_mapSet (m : List (String × Nat)) (k r : String) (v : Nat) :
    mapLookup (mapSet m k v) r = if k == r then some v else mapLookup m r := by
  induction m with
  | nil => simp [mapSet, mapLookup]
  | cons kv rest ih =>
    obtain ⟨k', v'⟩ := kv
    by_cases hk : k' = k
    · subst hk
      by_cases hr : k' = r
      · subst hr
        simp [mapSet, mapLookup]
      · simp [mapSet, mapLookup, hr, beq_iff_eq]
    · by_cases hr : k' = r
      · subst hr
        simp [mapSet, mapLookup, hk, beq_iff_eq, Ne.symm hk]
      · simp [mapSet, mapLookup, beq_iff_eq, hk, hr, ih]

/-- C10: no manager operation removes an entry from the root→client map —
root removal disposes the client but keeps the entry, and registry disposal
keeps all entries. Hence a mapped root stays mapped across any step, further
`createClient` calls for it return immediately without side effects, and
`waitClient` keeps resolving immediately. -/
theorem clientsMap_entries_persist (st : ManagerState) (step : MStep) (root : String)
    (h : (mapLookup st.clientsMap root).isSome = true) :
    (mapLookup (applyMStep step st).clientsMap root).isSome = true ∧
    (∀ wp, createClientStart wp root (applyMStep step st) = (applyMStep step st, false)) ∧
    waitClientResolves (applyMStep step st) root [] = true ∧
    (∀ wp, createClientStart wp root st = (st, false)) ∧
    waitClientResolves st root [] = true := by
  have hpres : (mapLookup (applyMStep step st).clientsMap root).isSome = true := by
    cases step with
    | start wp r => rw [applyMStep, createClientStart_clientsMap]; exact h
    | resolve r c =>
      rw [applyMStep]
      unfold createClientResolve
      by_cases hd : st.disposed
      · simp [hd]; exact h
      · simp [hd, mapLookup_mapSet]
        by_cases hr : r = root
        · simp [hr, beq_iff_eq]
        · simp [beq_iff_eq, hr]; exact h
    | reject r err => exact h
    | rootRemoved r =>
      rw [applyMStep]
      unfold onRootRemoved
      rcases hc : mapLookup st.clientsMap r with _ | c
      · simp [hc]; exact h
      · simp [hc]; exact h
    | createWatcher wid => exact h
    | disposeM => exact h
  refine ⟨hpres, ?_, ?_, ?_, ?_⟩
  · intro wp
    exact createClientStart_noop wp root _ (Or.inr hpres)
  · simp [waitClientResolves, hpres]
  · intro wp
    exact createClientStart_noop wp root _ (Or.inr h)
  · simp [waitClientResolves, h]

/-- Concrete run of `clientsMap_entries_persist`: after removing the root the
map entry is still there and `createClient` is still a no-op. -/
theorem clientsMap_entries_persist_witness :
    (mapLookup (applyMStep (.rootRemoved "/a")
      ({ clientsMap := [("/a", 1)] } : ManagerState)).clientsMap "/a").isSome = true ∧
    waitClientResolves (applyMStep (.rootRemoved "/a")
      ({ clientsMap := [("/a", 1)] } : ManagerState)) "/a" [] = true := by
  have h := clientsMap_entries_persist ({ clientsMap := [("/a", 1)] } : ManagerState)
    (.rootRemoved "/a") "/a" (by decide)
  exact ⟨h.1, h.2.2.1⟩

/-- C8: a record whose type is not `"f"` or whose name fails the glob match
contributes nothing at all: the batch with the record fires exactly the events
of the batch without it — no create/change/delete, and no participation in
either rename heuristic. -/
theorem filtered_out_record_no_events (glob : String → String → Bool)
    (w : FileSystemWatcher) (root : String) (files₁ files₂ : List FileItem) (r : FileItem)
    (h : (r.type == "f" && glob r.name w.globPattern) = false) :
    onChangeEvents glob w ⟨root, files₁ ++ r :: files₂⟩ =
      onChangeEvents glob w ⟨root, files₁ ++ files₂⟩ := by
  have hf : filterFiles glob w.globPattern (files₁ ++ r :: files₂) =
      filterFiles glob w.globPattern (files₁ ++ files₂) := by
    simp only [filterFiles, List.filter_append, List.filter_cons, h]
    simp
  simp only [onChangeEvents, hf]

/-- Concrete run of `filtered_out_record_no_events`: a directory entry between
two file entries changes nothing. -/
theorem filtered_out_record_no_events_witness :
    onChangeEvents (fun _ _ => true)
      { globPattern := "p", ignoreCreateEvents := false, ignoreChangeEvents := false,
        ignoreDeleteEvents := false }
      ⟨"/r", [itemGone "a" 5 100] ++
        { name := "d", type := "d", exists_ := true, new := true, size := 5, mtime_ms := 100 } ::
          [itemNew "b" 5 100]⟩ =
    onChangeEvents (fun _ _ => true)
      { globPattern := "p", ignoreCreateEvents := false, ignoreChangeEvents := false,
        ignoreDeleteEvents := false }
      ⟨"/r", [itemGone "a" 5 100] ++ [itemNew "b" 5 100]⟩ :=
  filtered_out_record_no_events (fun _ _ => true)
    { globPattern := "p", ignoreCreateEvents := false, ignoreChangeEvents := false,
      ignoreDeleteEvents := false }
    "/r" [itemGone "a" 5 100] [itemNew "b" 5 100]
    { name := "d", type := "d", exists_ := true, new := true, size := 5, mtime_ms := 100 }
    (by decide)

/-- The pairwise heuristic fires only rename events. -/
theorem pairRename_renames_only (root : String) (files : List FileItem) :
    ∀ e ∈ pairRename root files, isRenameEvent e = true := by
  intro e he
  unfold pairRename at he
  split at he
  · split at he
    · simp only [List.mem_singleton] at he
      subst he
      rfl
    · simp at he
  · simp at he

/-- The batch heuristic fires only rename events. -/
theorem batchRenames_renames_only (root : String) (files : List FileItem) :
    ∀ e ∈ batchRenames root files, isRenameEvent e = true := by
  intro e he
  simp only [batchRenames] at he
  split at he
  · split at he
    · simp only [List.mem_filterMap] at he
      obtain ⟨a, _, ha⟩ := he
      split at ha
      · cases ha
        rfl
      · cases ha
    · simp at he
  · simp at he

/-- The classification loop fires no rename. -/
theorem perRecord_no_renames (root : String) (c₁ c₂ c₃ : Bool) (files : List FileItem) :
    ∀ e ∈ perRecordEvents root c₁ c₂ c₃ files, isRenameEvent e = false := by
  intro e he
  simp only [perRecordEvents, List.mem_filterMap] at he
  obtain ⟨f, _, hf⟩ := he
  split at hf
  · split at hf
    · cases hf; rfl
    · cases hf
  · split at hf
    · split at hf
      · cases hf; rfl
      · cases hf
    · split at hf
      · cases hf; rfl
      · cases hf

/-- A list of rename events has no event of another shape. -/
theorem countP_eq_zero_of_renames (p : WatchEvent → Bool)
    (hp : ∀ a b, p (.rename a b) = false) (l : List WatchEvent)
    (hl : ∀ e ∈ l, isRenameEvent e = true) : l.countP p = 0 := by
  rw [List.countP_eq_zero]
  intro e he
  have hr := hl e he
  cases e with
  | rename a b => simp [hp]
  | create u => simp [isRenameEvent] at hr
  | change u => simp [isRenameEvent] at hr
  | delete u => simp [isRenameEvent] at hr

/-- Delete count of the classification loop: zero under the ignore flag, the
number of vanished records otherwise. -/
theorem perRecord_count_delete (root : String) (c₁ c₂ c₃ : Bool) (files : List FileItem) :
    (perRecordEvents root c₁ c₂ c₃ files).countP isDeleteEvent =
      if c₃ then 0 else files.countP fun f => !f.exists_ := by
  induction files with
  | nil => cases c₃ <;> rfl
  | cons f fs ih =>
    cases c₃ <;> cases hex : f.exists_ <;> cases hnew : f.new <;> cases c₁ <;> cases c₂ <;>
      simp_all [perRecordEvents, List.filterMap_cons, List.countP_cons,
        isDeleteEvent, isCreateEvent, isChangeEvent] <;>
      assumption

/-- Create count of the classification loop. -/
theorem perRecord_count_create (root : String) (c₁ c₂ c₃ : Bool) (files : List FileItem) :
    (perRecordEvents root c₁ c₂ c₃ files).countP isCreateEvent =
      if c₁ then 0 else files.countP fun f => f.exists_ && f.new := by
  induction files with
  | nil => cases c₁ <;> rfl
  | cons f fs ih =>
    cases c₁ <;> cases hex : f.exists_ <;> cases hnew : f.new <;> cases c₂ <;> cases c₃ <;>
      simp_all [perRecordEvents, List.filterMap_cons, List.countP_cons,
        isDeleteEvent, isCreateEvent, isChangeEvent] <;>
      assumption

/-- Change count of the classification loop. -/
theorem perRecord_count_change (root : String) (c₁ c₂ c₃ : Bool) (files : List FileItem) :
    (perRecordEvents root c₁ c₂ c₃ files).countP isChangeEvent =
      if c₂ then 0 else files.countP fun f => f.exists_ && !f.new := by
  induction files with
  | nil => cases c₂ <;> rfl
  | cons f fs ih =>
    cases c₂ <;> cases hex : f.exists_ <;> cases hnew : f.new <;> cases c₁ <;> cases c₃ <;>
      simp_all [perRecordEvents, List.filterMap_cons, List.countP_cons,
        isDeleteEvent, isCreateEvent, isChangeEvent] <;>
      assumption

/-- C7: over a whole batch, the number of delete events equals the number of
filtered vanished records unless `ignoreDeleteEvents` suppresses them, and
likewise create events count the new present records and change events the
remaining present records, each under its own flag; the rename events fired
are the same for every setting of the three ignore flags. -/
theorem classification_and_ignore_flags (glob : String → String → Bool)
    (w : FileSystemWatcher) (change : FileChange) (b₁ b₂ b₃ : Bool) :
    ((onChangeEvents glob w change).countP isDeleteEvent =
      if w.ignoreDeleteEvents then 0
      else (filterFiles glob w.globPattern change.files).countP fun f => !f.exists_) ∧
    ((onChangeEvents glob w change).countP isCreateEvent =
      if w.ignoreCreateEvents then 0
      else (filterFiles glob w.globPattern change.files).countP fun f => f.exists_ && f.new) ∧
    ((onChangeEvents glob w change).countP isChangeEvent =
      if w.ignoreChangeEvents then 0
      else (filterFiles glob w.globPattern change.files).countP fun f => f.exists_ && !f.new) ∧
    renameEvents (onChangeEvents glob
      { w with ignoreCreateEvents := b₁, ignoreChangeEvents := b₂, ignoreDeleteEvents := b₃ }
      change) = renameEvents (onChangeEvents glob w change) := by
  have hpair := pairRename_renames_only change.root
    (filterFiles glob w.globPattern change.files)
  have hbatch := batchRenames_renames_only change.root
    (filterFiles glob w.globPattern change.files)
  refine ⟨?_, ?_, ?_, ?_⟩
  · simp only [onChangeEvents, List.countP_append]
    rw [perRecord_count_delete,
      countP_eq_zero_of_renames isDeleteEvent (fun a b => rfl) _ hpair,
      countP_eq_zero_of_renames isDeleteEvent (fun a b => rfl) _ hbatch]
    omega
  · simp only [onChangeEvents, List.countP_append]
    rw [perRecord_count_create,
      countP_eq_zero_of_renames isCreateEvent (fun a b => rfl) _ hpair,
      countP_eq_zero_of_renames isCreateEvent (fun a b => rfl) _ hbatch]
    omega
  · simp only [onChangeEvents, List.countP_append]
    rw [perRecord_count_change,
      countP_eq_zero_of_renames isChangeEvent (fun a b => rfl) _ hpair,
      countP_eq_zero_of_renames isChangeEvent (fun a b => rfl) _ hbatch]
    omega
  · simp only [onChangeEvents, renameEvents, List.filter_append]
    have h1 : ∀ (c₁ c₂ c₃ : Bool),
        List.filter isRenameEvent (perRecordEvents change.root c₁ c₂ c₃
          (filterFiles glob w.globPattern change.files)) = [] := by
      intro c₁ c₂ c₃
      rw [List.filter_eq_nil_iff]
      intro e he
      simp [perRecord_no_renames change.root c₁ c₂ c₃ _ e he]
    rw [h1, h1]

/-- Concrete run of `classification_and_ignore_flags`: a vanished and a fresh
record, `ignoreDeleteEvents` on suppresses the delete but leaves renames. -/
theorem classification_and_ignore_flags_witness :
    (onChangeEvents (fun _ _ => true)
      { globPattern := "p", ignoreCreateEvents := false, ignoreChangeEvents := false,
        ignoreDeleteEvents := true }
      ⟨"/r", [itemGone "a" 5 100, itemNew "b" 5 100]⟩).countP isDeleteEvent = 0 := by
  have h := classification_and_ignore_flags (fun _ _ => true)
    { globPattern := "p", ignoreCreateEvents := false, ignoreChangeEvents := false,
      ignoreDeleteEvents := true }
    ⟨"/r", [itemGone "a" 5 100, itemNew "b" 5 100]⟩ false false false
  simpa using h.1

/-- C2: when the filtered list is exactly two records, the first absent, the
second present, with equal sizes, the fired events are precisely the
per-record delete and create/change events, then the pairwise rename, then —
because the batch heuristic also runs on two-record lists — a second identical
rename exactly when the modification times also agree. -/
theorem pairwise_rename_in_addition (glob : String → String → Bool)
    (w : FileSystemWatcher) (change : FileChange) (a b : FileItem)
    (hf : filterFiles glob w.globPattern change.files = [a, b])
    (ha : a.exists_ = false) (hb : b.exists_ = true) (hs : a.size = b.size) :
    onChangeEvents glob w change =
      (if w.ignoreDeleteEvents then [] else [.delete (pathJoin change.root a.name)]) ++
      ((if b.new then
          (if w.ignoreCreateEvents then [] else [.create (pathJoin change.root b.name)])
        else
          (if w.ignoreChangeEvents then [] else [.change (pathJoin change.root b.name)])) ++
       ([.rename (pathJoin change.root a.name) (pathJoin change.root b.name)] ++
        (if b.mtime_ms == a.mtime_ms then
           [.rename (pathJoin change.root a.name) (pathJoin change.root b.name)]
         else []))) := by
  simp only [onChangeEvents, hf]
  cases hd : w.ignoreDeleteEvents <;> cases hc : w.ignoreCreateEvents <;>
    cases hh : w.ignoreChangeEvents <;> cases hn : b.new <;>
    by_cases hm : b.mtime_ms = a.mtime_ms <;>
    simp_all [perRecordEvents, pairRename, batchRenames, splitArray, List.filterMap_cons,
      ha, hb, hs, hn, hm]

/-- Concrete run of `pairwise_rename_in_addition`: vanished `a` and fresh `b`
of equal size and mtime yield delete, create, and the rename fired twice (once
by each heuristic). -/
theorem pairwise_rename_in_addition_witness :
    onChangeEvents (fun _ _ => true)
      { globPattern := "p", ignoreCreateEvents := false, ignoreChangeEvents := false,
        ignoreDeleteEvents := false }
      ⟨"/r", [itemGone "a" 5 100, itemNew "b" 5 100]⟩ =
      [.delete "/r/a", .create "/r/b", .rename "/r/a" "/r/b", .rename "/r/a" "/r/b"] := by
  have h := pairwise_rename_in_addition (fun _ _ => true)
    { globPattern := "p", ignoreCreateEvents := false, ignoreChangeEvents := false,
      ignoreDeleteEvents := false }
    ⟨"/r", [itemGone "a" 5 100, itemNew "b" 5 100]⟩
    (itemGone "a" 5 100) (itemNew "b" 5 100) (by decide) rfl rfl rfl
  simpa [itemGone, itemNew, pathJoin] using h

/-- Joining the same root with two names yields the same path only for the
same name. -/
theorem pathJoin_name_inj (root n₁ n₂ : String) (h : pathJoin root n₁ = pathJoin root n₂) :
    n₁ = n₂ := by
  unfold pathJoin at h
  have hd := congrArg String.data h
  simp only [String.data_append] at hd
  exact String.ext (List.append_cancel_left hd)

/-- C1 counterexample: vanished `a`, `b` and appeared `c`, `d` all share the
fingerprint (5, 100); the code pairs both `a` and `b` with `c` — the appeared
record `c` is the new side of two renames in one batch and `d` is never used,
against the claim's "first not-yet-matched" pairing. -/
theorem batch_rename_reuses_appeared :
    batchRenames "/r"
      [itemGone "a" 5 100, itemGone "b" 5 100, itemNew "c" 5 100, itemNew "d" 5 100] =
      [.rename "/r/a" "/r/c", .rename "/r/b" "/r/c"] ∧
    renameEvents (onChangeEvents (fun _ _ => true)
      { globPattern := "p", ignoreCreateEvents := false, ignoreChangeEvents := false,
        ignoreDeleteEvents := false }
      ⟨"/r", [itemGone "a" 5 100, itemGone "b" 5 100, itemNew "c" 5 100, itemNew "d" 5 100]⟩) =
      [.rename "/r/a" "/r/c", .rename "/r/b" "/r/c"] := by decide

/-- C1 (amended): with at least two filtered records and equally sized
vanished/appeared partitions, every vanished record with some
fingerprint-equal appeared record fires a rename to the FIRST such appeared
record of the whole appeared list — matched appeared records are not removed,
so one appeared record can serve several vanished ones — and a vanished
record with no fingerprint match (given pairwise distinct vanished names)
fires no batch rename at all. -/
theorem batch_rename_first_match (root : String) (files : List FileItem)
    (hlen : 2 ≤ files.length)
    (heq : (splitArray files fun o => o.exists_ == false).1.length =
           (splitArray files fun o => o.exists_ == false).2.length)
    (hnd : ((splitArray files fun o => o.exists_ == false).1.map FileItem.name).Nodup)
    (v : FileItem) (hv : v ∈ (splitArray files fun o => o.exists_ == false).1) :
    (∀ a, ((splitArray files fun o => o.exists_ == false).2.find?
        fun o => o.size == v.size && o.mtime_ms == v.mtime_ms) = some a →
      WatchEvent.rename (pathJoin root v.name) (pathJoin root a.name) ∈
        batchRenames root files) ∧
    (((splitArray files fun o => o.exists_ == false).2.find?
        fun o => o.size == v.size && o.mtime_ms == v.mtime_ms) = none →
      ∀ u, WatchEvent.rename (pathJoin root v.name) u ∉ batchRenames root files) := by
  have hbr : batchRenames root files =
      (splitArray files fun o => o.exists_ == false).1.filterMap fun oldFile =>
        match (splitArray files fun o => o.exists_ == false).2.find?
            fun o => o.size == oldFile.size && o.mtime_ms == oldFile.mtime_ms with
        | some newFile =>
          some (.rename (pathJoin root oldFile.name) (pathJoin root newFile.name))
        | none => none := by
    have hif : ((splitArray files fun o => o.exists_ == false).1.length ==
        (splitArray files fun o => o.exists_ == false).2.length) = true := by
      rw [heq]
      exact beq_self_eq_true _
    simp only [batchRenames]
    rw [if_pos hlen, if_pos hif]
  constructor
  · intro a hfind
    rw [hbr]
    exact List.mem_filterMap.mpr ⟨v, hv, by rw [hfind]⟩
  · intro hnone u hmem
    rw [hbr] at hmem
    obtain ⟨v', hv', hfv⟩ := List.mem_filterMap.mp hmem
    rcases hfind : ((splitArray files fun o => o.exists_ == false).2.find?
        fun o => o.size == v'.size && o.mtime_ms == v'.mtime_ms) with _ | nf
    · rw [hfind] at hfv
      cases hfv
    · rw [hfind] at hfv
      injection hfv with h1
      injection h1 with h2 h3
      have hname := pathJoin_name_inj root v'.name v.name h2
      have hveq := List.inj_on_of_nodup_map hnd hv' hv hname
      rw [hveq] at hfind
      rw [hnone] at hfind
      cases hfind

/-- Concrete run of `batch_rename_first_match`, on the spec's own example:
vanished x(5,100), y(7,200); appeared p(7,200), q(5,100); x is renamed to q. -/
theorem batch_rename_first_match_witness :
    WatchEvent.rename "/r/x" "/r/q" ∈ batchRenames "/r"
      [itemGone "x" 5 100, itemGone "y" 7 200, itemNew "p" 7 200, itemNew "q" 5 100] := by
  have h := batch_rename_first_match "/r"
    [itemGone "x" 5 100, itemGone "y" 7 200, itemNew "p" 7 200, itemNew "q" 5 100]
    (by decide) (by decide) (by decide)
    (itemGone "x" 5 100) (by decide)
  have h2 := h.1 (itemNew "q" 5 100) (by decide)
  simpa [itemGone, itemNew, pathJoin] using h2

/-- C4 at the failing input: after `dispose()` the watcher is gone from the
registry and the create, change and rename emitters are disposed, but the
delete emitter is still active — `dispose()` never disposes `_onDidDelete` —
so a later batch with a vanished matching file still fires a delete event on
the watcher's delete stream. -/
theorem disposed_watcher_still_fires_delete :
    (watcherDispose
      { globPattern := "p", ignoreCreateEvents := false, ignoreChangeEvents := false,
        ignoreDeleteEvents := false } 1 [1]).2 = [] ∧
    (watcherDispose
      { globPattern := "p", ignoreCreateEvents := false, ignoreChangeEvents := false,
        ignoreDeleteEvents := false } 1 [1]).1.onDidCreate.active = false ∧
    (watcherDispose
      { globPattern := "p", ignoreCreateEvents := false, ignoreChangeEvents := false,
        ignoreDeleteEvents := false } 1 [1]).1.onDidChange.active = false ∧
    (watcherDispose
      { globPattern := "p", ignoreCreateEvents := false, ignoreChangeEvents := false,
        ignoreDeleteEvents := false } 1 [1]).1.onDidRename.active = false ∧
    (watcherDispose
      { globPattern := "p", ignoreCreateEvents := false, ignoreChangeEvents := false,
        ignoreDeleteEvents := false } 1 [1]).1.onDidDelete.active = true ∧
    observableEvents (fun _ _ => true)
      (watcherDispose
        { globPattern := "p", ignoreCreateEvents := false, ignoreChangeEvents := false,
          ignoreDeleteEvents := false } 1 [1]).1
      ⟨"/r", [itemGone "a.txt" 5 100]⟩ = [.delete "/r/a.txt"] := by decide

end FsWatch
